import Mathlib

/-!
Verification development for `validate_rooted_hypershell.py`, a static
completeness checker.  The script is embedded shallowly: the filesystem is a
finite association list from path strings to entries, Python's `open`/`read`
is a partial read operation, `re.search` is modelled by a small matching
engine covering exactly the regex fragment the script builds (literal
characters, `.`, `.*`, and backslash-escaped punctuation; every other
metacharacter is treated as a compilation failure, mirroring the `re.error`
path that the script's `try`/`except` turns into `False`), and each
`validate_*` function returns the list of lines it prints together with its
boolean verdict, inside `Except Unit` so that an uncaught Python exception is
an `Except.error`.
-/

/-- One filesystem entry: a directory flag, a readability flag, and the text
content (meaningful only for readable regular files). -/
structure FSEntry where
  isDir : Bool
  readable : Bool
  content : String
deriving DecidableEq

/-- The filesystem under the configured root: a finite map from relative path
strings to entries.  Paths not listed do not exist. -/
abbrev FS := List (String × FSEntry)

/-- Path lookup in the filesystem map. -/
def lookupFS : FS → String → Option FSEntry
  | [], _ => none
  | (k, e) :: rest, p => if k == p then some e else lookupFS rest p

/-- `os.path.exists`: true iff some entry (file or directory, readable or
not) is present at the path. -/
def osPathExists (fs : FS) (p : String) : Bool :=
  (lookupFS fs p).isSome

/-- `open(p).read()`: succeeds with the text only for an existing readable
regular file; `none` models the raised `OSError`/`IsADirectoryError`. -/
def readFile (fs : FS) (p : String) : Option String :=
  match lookupFS fs p with
  | none => none
  | some e => if e.isDir || !e.readable then none else some e.content

/-- `w` is a leading segment of `s` (character-list level). -/
def isLeadOf : List Char → List Char → Bool
  | [], _ => true
  | _ :: _, [] => false
  | c :: cs, x :: xs => c == x && isLeadOf cs xs

/-- Python's substring test `needle in hay`, on character lists. -/
def containsSub (hay needle : List Char) : Bool :=
  match hay with
  | [] => isLeadOf needle []
  | x :: t => isLeadOf needle (x :: t) || containsSub t needle

/-- Python's `needle in hay` on strings. -/
def strIn (needle hay : String) : Bool :=
  containsSub hay.data needle.data

/-- Tokens of the regex fragment the script's patterns use: a literal
character, `.` (any character except newline), or `.*`. -/
inductive RTok where
  | lit : Char → RTok
  | dot : RTok
  | dotStar : RTok
deriving DecidableEq

/-- Regex metacharacters outside the supported fragment; a pattern using one
of them unescaped is treated as failing to compile. -/
def isOtherMeta (c : Char) : Bool :=
  ['*', '+', '?', '[', ']', '(', ')', '|', '^', '$', '\x7b', '\x7d'].contains c

/-- A character with no special regex meaning. -/
def plainChar (c : Char) : Bool :=
  !(c == '\\') && !(c == '.') && !(isOtherMeta c)

/-- Shorthand: a word compiled as all-literal tokens. -/
def lits (w : List Char) : List RTok := w.map RTok.lit

/-- Compile a pattern string to tokens.  `\\c` is the escaped literal `c`
(for punctuation), `.` / `.*` are the wildcards, other metacharacters are
unsupported and yield `none`, standing for a pattern the model does not
accept (the script only ever hits the supported fragment). -/
def compilePat : List Char → Option (List RTok)
  | [] => some []
  | c :: rest =>
    if c == '\\' then
      match rest with
      | [] => none
      | d :: rest2 =>
        if d.isAlphanum then none
        else Option.map (fun ts => RTok.lit d :: ts) (compilePat rest2)
    else if c == '.' then
      match rest with
      | [] => some [RTok.dot]
      | d :: rest2 =>
        if d == '*' then Option.map (fun ts => RTok.dotStar :: ts) (compilePat rest2)
        else Option.map (fun ts => RTok.dot :: ts) (compilePat (d :: rest2))
    else if isOtherMeta c then none
    else Option.map (fun ts => RTok.lit c :: ts) (compilePat rest)

/-- Fuel-indexed anchored matcher: does some leading segment of `s` match the
token list?  Each recursive call shrinks `ts.length + s.length`, so fuel
`ts.length + s.length + 1` never runs out. -/
def reMatchF : Nat → List RTok → List Char → Bool
  | 0, _, _ => false
  | _ + 1, [], _ => true
  | _ + 1, RTok.lit _ :: _, [] => false
  | f + 1, RTok.lit c :: ts, x :: xs => c == x && reMatchF f ts xs
  | _ + 1, RTok.dot :: _, [] => false
  | f + 1, RTok.dot :: ts, x :: xs => x != '\n' && reMatchF f ts xs
  | f + 1, RTok.dotStar :: ts, [] => reMatchF f ts []
  | f + 1, RTok.dotStar :: ts, x :: xs =>
    reMatchF f ts (x :: xs) || (x != '\n' && reMatchF f (RTok.dotStar :: ts) xs)

/-- Anchored match with sufficient fuel. -/
def reMatch (ts : List RTok) (s : List Char) : Bool :=
  reMatchF (ts.length + s.length + 1) ts s

/-- `re.search`: the tokens match at some position of `s`. -/
def reSearch (ts : List RTok) (s : List Char) : Bool :=
  reMatch ts s ||
    match s with
    | [] => false
    | _ :: xs => reSearch ts xs

/-- `check_file_exists`: the printed line and the boolean result. -/
def check_file_exists (fs : FS) (filepath description : String) : String × Bool :=
  if osPathExists fs filepath then
    ("✓ " ++ description ++ ": " ++ filepath, true)
  else
    ("✗ " ++ description ++ " NOT FOUND: " ++ filepath, false)

/-- The six surface patterns `check_function_exists` builds for a name. -/
def functionPatterns (function_name : String) : List String :=
  ["function " ++ function_name,
   "function.*" ++ function_name,
   "local function " ++ function_name,
   "function.*:" ++ function_name,
   function_name ++ " = function",
   "function.*\\." ++ function_name]

/-- The pattern loop of `check_function_exists`: try each pattern in order;
a pattern that fails to compile raises `re.error`, which the enclosing
`try`/`except` converts into an overall `False`. -/
def searchPatterns : List String → String → Bool
  | [], _ => false
  | p :: ps, content =>
    match compilePat p.data with
    | none => false
    | some ts => reSearch ts content.data || searchPatterns ps content

/-- `check_function_exists`: read the file and try the six patterns; any
failure (unreadable file, bad pattern) degrades to `false`. -/
def check_function_exists (fs : FS) (filepath function_name : String) : Bool :=
  match readFile fs filepath with
  | none => false
  | some content => searchPatterns (functionPatterns function_name) content

/-- `check_class_exists`: the two local/table substring forms, then the two
`torch.class` registration forms (single-quoted without prefix, double-quoted
with the `nn.` prefix); unreadable file degrades to `false`. -/
def check_class_exists (fs : FS) (filepath class_name : String) : Bool :=
  match readFile fs filepath with
  | none => false
  | some content =>
    if strIn ("local " ++ class_name) content || strIn (class_name ++ " = \x7b\x7d") content then
      true
    else if strIn ("torch.class(\x27" ++ class_name ++ "\x27") content ||
        strIn ("torch.class(\"nn." ++ class_name ++ "\"") content then
      true
    else
      false

/-- One construct-presence item inside a validation loop: the printed line
and its boolean result, with `label` one of `Function`, `Method`, `Test`. -/
def constructItem (fs : FS) (filepath label fn : String) : String × Bool :=
  if check_function_exists fs filepath fn then
    ("  ✓ " ++ label ++ ": " ++ fn, true)
  else
    ("  ✗ " ++ label ++ " missing: " ++ fn, false)

/-- The function list of `validate_rooted_tree`. -/
def rootedTreeFunctions : List String :=
  ["RootedTree.new", "addChild", "getNodesAtDepth", "traverseDFS",
   "traverseBFS", "getLeaves", "countRootedTrees", "getA000081Sequence"]

/-- `validate_rooted_tree`: existence short-circuit, the function loop, then
the A000081 literal check which re-opens the file without a `try` block (an
unreadable existing file therefore raises). -/
def validate_rooted_tree (fs : FS) : Except Unit (List String × Bool) :=
  let hdr := "\n=== Validating RootedTree Module ==="
  let fe := check_file_exists fs "rooted_tree.lua" "RootedTree module"
  if !fe.2 then .ok ([hdr, fe.1], false)
  else
    let items := rootedTreeFunctions.map (constructItem fs "rooted_tree.lua" "Function")
    match readFile fs "rooted_tree.lua" with
    | none => .error ()
    | some content =>
      let hasA := strIn "A000081" content || strIn "a000081" content
      let aLine :=
        if hasA then "  ✓ A000081 sequence implementation present"
        else "  ✗ A000081 sequence implementation missing"
      .ok (hdr :: fe.1 :: (items.map Prod.fst ++ [aLine]), items.all Prod.snd && hasA)

/-- The function list of `validate_hypershell`. -/
def hypershellFunctions : List String :=
  ["Hypershell.new", "buildShells", "getShell", "getNodeDepth",
   "propagateOutward", "propagateInward", "spreadAttention"]

/-- `validate_hypershell`: existence short-circuit then the function loop. -/
def validate_hypershell (fs : FS) : Except Unit (List String × Bool) :=
  let hdr := "\n=== Validating Hypershell Module ==="
  let fe := check_file_exists fs "hypershell.lua" "Hypershell module"
  if !fe.2 then .ok ([hdr, fe.1], false)
  else
    let items := hypershellFunctions.map (constructItem fs "hypershell.lua" "Function")
    .ok (hdr :: fe.1 :: items.map Prod.fst, items.all Prod.snd)

/-- The method list of `validate_rooted_hypershell`. -/
def rootedHypershellMethods : List String :=
  ["updateOutput", "updateGradInput", "buildTreeFromShells",
   "spreadAttention", "hierarchicalInference", "getRelevantNodes"]

/-- `validate_rooted_hypershell`: existence short-circuit, then the class
check which on failure returns `false` immediately (the method loop is
skipped), then the method loop. -/
def validate_rooted_hypershell (fs : FS) : Except Unit (List String × Bool) :=
  let hdr := "\n=== Validating RootedHypershell Module ==="
  let fe := check_file_exists fs "rooted_hypershell.lua" "RootedHypershell module"
  if !fe.2 then .ok ([hdr, fe.1], false)
  else if check_class_exists fs "rooted_hypershell.lua" "RootedHypershell" then
    let items := rootedHypershellMethods.map (constructItem fs "rooted_hypershell.lua" "Method")
    .ok (hdr :: fe.1 :: "  ✓ Class: nn.RootedHypershell" :: items.map Prod.fst,
      items.all Prod.snd)
  else
    .ok ([hdr, fe.1, "  ✗ Class definition missing"], false)

/-- The test list of `validate_tests`. -/
def testNames : List String :=
  ["testRootedTreeBasics", "testRootedTreeTraversal", "testA000081Sequence",
   "testHypershellCreation", "testRootedHypershell"]

/-- `validate_tests`: existence short-circuit then the test loop. -/
def validate_tests (fs : FS) : Except Unit (List String × Bool) :=
  let hdr := "\n=== Validating Test Suite ==="
  let fe := check_file_exists fs "test/test_rooted_hypershell.lua" "Test suite"
  if !fe.2 then .ok ([hdr, fe.1], false)
  else
    let items := testNames.map (constructItem fs "test/test_rooted_hypershell.lua" "Test")
    .ok (hdr :: fe.1 :: items.map Prod.fst, items.all Prod.snd)

/-- The literal-substring checks of `validate_examples`. -/
def exampleChecks : List (String × String) :=
  [("RootedTree", "RootedTree usage"), ("Hypershell", "Hypershell usage"),
   ("RootedHypershell", "RootedHypershell usage"), ("A000081", "A000081 sequence"),
   ("spreadAttention", "Attention spreading")]

/-- One literal-substring item of `validate_examples`. -/
def exampleItem (content : String) (pd : String × String) : String × Bool :=
  if strIn pd.1 content then ("  ✓ " ++ pd.2, true)
  else ("  ✗ " ++ pd.2 ++ " missing", false)

/-- `validate_examples`: existence short-circuit, then a bare `open` (raises
on an unreadable existing file) and the literal-substring loop. -/
def validate_examples (fs : FS) : Except Unit (List String × Bool) :=
  let hdr := "\n=== Validating Examples ==="
  let fe := check_file_exists fs "examples/rooted_hypershell_example.lua" "Example file"
  if !fe.2 then .ok ([hdr, fe.1], false)
  else
    match readFile fs "examples/rooted_hypershell_example.lua" with
    | none => .error ()
    | some content =>
      let items := exampleChecks.map (exampleItem content)
      .ok (hdr :: fe.1 :: items.map Prod.fst, items.all Prod.snd)

/-- The architecture-document half of `validate_documentation`: if the file
exists it is opened bare (raises when unreadable) and the three content
checks print only on success, never touching the verdict. -/
def docPart (fs : FS) : Except Unit (List String × Bool) :=
  let fe := check_file_exists fs "doc/ROOTED_HYPERSHELL.md" "Architecture documentation"
  if fe.2 then
    match readFile fs "doc/ROOTED_HYPERSHELL.md" with
    | none => .error ()
    | some dcontent =>
      let dLines :=
        (if strIn "A000081" dcontent then ["  ✓ A000081 documentation present"] else []) ++
        (if strIn "Hypershell" dcontent then ["  ✓ Hypershell documentation present"] else []) ++
        (if strIn "RootedTree" dcontent then ["  ✓ RootedTree documentation present"] else [])
      .ok (fe.1 :: dLines, true)
  else
    .ok ([fe.1], false)

/-- The README half of `validate_documentation`: the mention check flips the
verdict when missing. -/
def readmePart (fs : FS) : Except Unit (List String × Bool) :=
  let fe := check_file_exists fs "README.md" "README"
  if fe.2 then
    match readFile fs "README.md" with
    | none => .error ()
    | some content =>
      if strIn "Rooted Hypershell" content || strIn "rooted hypershell" content then
        .ok ([fe.1, "  ✓ README mentions Rooted Hypershell"], true)
      else
        .ok ([fe.1, "  ✗ README does not mention Rooted Hypershell"], false)
  else
    .ok ([fe.1], false)

/-- `validate_documentation`: both halves in sequence; the verdict is the
conjunction of the two `all_present` contributions. -/
def validate_documentation (fs : FS) : Except Unit (List String × Bool) := do
  let hdr := "\n=== Validating Documentation ==="
  let d ← docPart fs
  let r ← readmePart fs
  return (hdr :: (d.1 ++ r.1), d.2 && r.2)

/-- The module list of `validate_integration`. -/
def integrationModules : List String :=
  ["rooted_tree", "hypershell", "rooted_hypershell"]

/-- The `require` test of `validate_integration` for one module: either the
single- or the double-quoted `nngraph.`-prefixed inclusion form. -/
def moduleRequired (content m : String) : Bool :=
  strIn ("require(\x27nngraph." ++ m ++ "\x27)") content ||
    strIn ("require(\"nngraph." ++ m ++ "\")") content

/-- One module item of `validate_integration`. -/
def integrationItem (content m : String) : String × Bool :=
  if moduleRequired content m then ("  ✓ Module required: " ++ m, true)
  else ("  ✗ Module not required: " ++ m, false)

/-- `validate_integration`: existence short-circuit, then a bare `open`
(raises when unreadable) and the module loop. -/
def validate_integration (fs : FS) : Except Unit (List String × Bool) :=
  let hdr := "\n=== Validating Integration ==="
  let fe := check_file_exists fs "init.lua" "init.lua"
  if !fe.2 then .ok ([hdr, fe.1], false)
  else
    match readFile fs "init.lua" with
    | none => .error ()
    | some content =>
      let items := integrationModules.map (integrationItem content)
      .ok (hdr :: fe.1 :: items.map Prod.fst, items.all Prod.snd)

/-- `main` of the script (named `mainRun` since Lean reserves `main`): run the seven validators in order, fold their verdicts with the
`all_passed` flag, and return the exit code (`0` on full pass, `1`
otherwise).  The printed summary is presentation only; the exit code is the
machine-readable output. -/
def mainRun (fs : FS) : Except Unit Nat := do
  let r1 ← validate_rooted_tree fs
  let r2 ← validate_hypershell fs
  let r3 ← validate_rooted_hypershell fs
  let r4 ← validate_tests fs
  let r5 ← validate_examples fs
  let r6 ← validate_documentation fs
  let r7 ← validate_integration fs
  let results := [("RootedTree", r1.2), ("Hypershell", r2.2),
    ("RootedHypershell", r3.2), ("Tests", r4.2), ("Examples", r5.2),
    ("Documentation", r6.2), ("Integration", r7.2)]
  let all_passed := results.foldl (fun acc kv => if !kv.2 then false else acc) true
  return (if all_passed then 0 else 1)

/-- The README-mention flag of `validate_documentation`, as a function of the
filesystem (false when README.md is absent or unreadable). -/
def readmeMentions (fs : FS) : Bool :=
  match readFile fs "README.md" with
  | none => false
  | some c => strIn "Rooted Hypershell" c || strIn "rooted hypershell" c

/-- Recognizer for the `✗ Module not required` diagnostic lines of
`validate_integration`. -/
def isMissingModuleLine (l : String) : Bool :=
  integrationModules.any (fun m => l == "  ✗ Module not required: " ++ m)

/-- Fixture: a directory entry sitting where a file is probed. -/
def dirEntry : FSEntry := ⟨true, true, ""⟩

/-- Fixture: tree where `rooted_tree.lua` exists but is unreadable, so the
bare `open` in `validate_rooted_tree` raises. -/
def fsC3 : FS := [("rooted_tree.lua", ⟨false, false, ""⟩)]

/-- Fixture: `rooted_hypershell.lua` has a method definition but no class
marker, exposing the class-check short-circuit. -/
def fsC2 : FS := [("rooted_hypershell.lua", ⟨false, true, "function updateOutput() end"⟩)]

/-- Fixture: documentation tree whose architecture document misses all three
content markers while the README mentions the feature. -/
def fsC2doc : FS :=
  [("doc/ROOTED_HYPERSHELL.md", ⟨false, true, "design notes"⟩),
   ("README.md", ⟨false, true, "Rooted Hypershell"⟩)]

/-- Fixture: a class-bearing `rooted_hypershell.lua` with one method defined. -/
def contentW2 : String :=
  "local RootedHypershell, parent = torch.class(\x27nn.RootedHypershell\x27, \x27nn.Module\x27)\nfunction RootedHypershell:updateOutput(input) return input end"

/-- Fixture filesystem for `contentW2`. -/
def fsW2 : FS := [("rooted_hypershell.lua", ⟨false, true, contentW2⟩)]

/-- Fixture: text where the regex `function a.b` matches although the literal
name `a.b` is absent. -/
def fsC5 : FS := [("rooted_tree.lua", ⟨false, true, "function axb"⟩)]

/-- Fixture: a file defining `addChild` but not `getLeaves`. -/
def fsW5 : FS := [("rooted_tree.lua", ⟨false, true, "local function addChild(node) end"⟩)]

/-- Fixture: a double-quoted, unprefixed `torch.class` registration. -/
def fsC6 : FS :=
  [("rooted_hypershell.lua", ⟨false, true, "torch.class(\"RootedHypershell\")"⟩)]

/-- Fixture: a single-quoted, unprefixed `torch.class` registration. -/
def fsW6 : FS :=
  [("rooted_hypershell.lua", ⟨false, true, "torch.class(\x27Demo\x27, \x27nn.Module\x27)"⟩)]

/-- Fixture: an `init.lua` wiring only two of the three required modules. -/
def contentW8 : String :=
  "require(\x27nngraph.rooted_tree\x27)\nrequire(\x27nngraph.hypershell\x27)\n"

/-- Fixture filesystem for `contentW8`. -/
def fsW8 : FS := [("init.lua", ⟨false, true, contentW8⟩)]

/-- Fixture: complete, readable documentation pair. -/
def fsW10 : FS :=
  [("doc/ROOTED_HYPERSHELL.md", ⟨false, true, "A000081 RootedTree Hypershell"⟩),
   ("README.md", ⟨false, true, "about Rooted Hypershell nets"⟩)]

theorem str_data_append (a b : String) : (a ++ b).data = a.data ++ b.data := rfl

theorem containsSub_cons (x : Char) (t w : List Char) (h : containsSub t w = true) :
    containsSub (x :: t) w = true := by
  simp [containsSub, h]

theorem containsSub_of_lead (w s : List Char) (h : isLeadOf w s = true) :
    containsSub s w = true := by
  cases s with
  | nil => simpa [containsSub] using h
  | cons x t => simp [containsSub, h]

theorem isLeadOf_append_left : ∀ (a b s : List Char),
    isLeadOf (a ++ b) s = true → isLeadOf a s = true
  | [], _, _, _ => rfl
  | _ :: _, _, [], h => by simp [isLeadOf] at h
  | c :: a', b, x :: xs, h => by
    simp only [List.cons_append, isLeadOf, Bool.and_eq_true] at h ⊢
    exact ⟨h.1, isLeadOf_append_left a' b xs h.2⟩

theorem containsSub_append_left : ∀ (s a b : List Char),
    containsSub s (a ++ b) = true → containsSub s a = true
  | [], a, b, h => by
    simp only [containsSub] at h ⊢
    exact isLeadOf_append_left a b [] h
  | x :: t, a, b, h => by
    simp only [containsSub, Bool.or_eq_true] at h ⊢
    rcases h with h | h
    · exact Or.inl (isLeadOf_append_left a b (x :: t) h)
    · exact Or.inr (containsSub_append_left t a b h)

theorem isLeadOf_of_litsMatch : ∀ (w : List Char) (f : Nat) (s : List Char),
    reMatchF f (lits w) s = true → isLeadOf w s = true
  | [], _, _, _ => rfl
  | _ :: _, 0, _, h => by simp [reMatchF] at h
  | _ :: w', _ + 1, [], h => by simp [lits, reMatchF] at h
  | c :: w', f + 1, x :: xs, h => by
    simp only [lits, List.map_cons, reMatchF, Bool.and_eq_true, beq_iff_eq] at h
    simp only [isLeadOf, Bool.and_eq_true, beq_iff_eq]
    exact ⟨h.1, isLeadOf_of_litsMatch w' f xs h.2⟩

theorem containsSub_of_matchF : ∀ (f : Nat) (ts : List RTok) (w s : List Char),
    reMatchF f (ts ++ lits w) s = true → containsSub s w = true := by
  intro f
  induction f with
  | zero => intro ts w s h; simp [reMatchF] at h
  | succ f ih =>
    intro ts w s h
    cases ts with
    | nil =>
      rw [List.nil_append] at h
      exact containsSub_of_lead w s (isLeadOf_of_litsMatch w (f + 1) s h)
    | cons t ts' =>
      cases t with
      | lit c =>
        cases s with
        | nil => simp [reMatchF] at h
        | cons x xs =>
          rw [List.cons_append] at h
          simp only [reMatchF, Bool.and_eq_true] at h
          exact containsSub_cons x xs w (ih ts' w xs h.2)
      | dot =>
        cases s with
        | nil => simp [reMatchF] at h
        | cons x xs =>
          rw [List.cons_append] at h
          simp only [reMatchF, Bool.and_eq_true] at h
          exact containsSub_cons x xs w (ih ts' w xs h.2)
      | dotStar =>
        cases s with
        | nil =>
          rw [List.cons_append] at h
          simp only [reMatchF] at h
          exact ih ts' w [] h
        | cons x xs =>
          rw [List.cons_append] at h
          simp only [reMatchF, Bool.or_eq_true, Bool.and_eq_true] at h
          rcases h with h | h
          · exact ih ts' w (x :: xs) h
          · refine containsSub_cons x xs w (ih (RTok.dotStar :: ts') w xs ?_)
            rw [List.cons_append]
            exact h.2

theorem containsSub_of_search : ∀ (ts : List RTok) (w s : List Char),
    reSearch (ts ++ lits w) s = true → containsSub s w = true
  | ts, w, [], h => by
    simp only [reSearch, reMatch, Bool.or_eq_true] at h
    rcases h with h | h
    · exact containsSub_of_matchF _ ts w [] h
    · simp at h
  | ts, w, x :: xs, h => by
    simp only [reSearch, reMatch, Bool.or_eq_true] at h
    rcases h with h | h
    · exact containsSub_of_matchF _ ts w (x :: xs) h
    · exact containsSub_cons x xs w (containsSub_of_search ts w xs h)

theorem compilePat_cons_plain (c : Char) (rest : List Char) (h : plainChar c = true) :
    compilePat (c :: rest) = Option.map (fun ts => RTok.lit c :: ts) (compilePat rest) := by
  simp only [plainChar, Bool.and_eq_true, Bool.not_eq_true'] at h
  rw [compilePat.eq_def]
  simp [h.1.1, h.1.2, h.2]

theorem compilePat_plain : ∀ (w : List Char), (∀ c ∈ w, plainChar c = true) →
    compilePat w = some (lits w)
  | [], _ => rfl
  | c :: w', h => by
    rw [compilePat_cons_plain c w' (h c (List.mem_cons_self c w'))]
    rw [compilePat_plain w' (fun d hd => h d (List.mem_cons_of_mem c hd))]
    rfl

theorem compilePat_plain_pre : ∀ (pre rest : List Char), (∀ c ∈ pre, plainChar c = true) →
    compilePat (pre ++ rest) = Option.map (fun ts => lits pre ++ ts) (compilePat rest)
  | [], rest, _ => by
    cases h : compilePat rest <;> simp [lits, h]
  | c :: pre', rest, h => by
    rw [List.cons_append, compilePat_cons_plain c _ (h c (List.mem_cons_self c pre'))]
    rw [compilePat_plain_pre pre' rest (fun d hd => h d (List.mem_cons_of_mem c hd))]
    cases hc : compilePat rest <;> simp [lits, hc]

theorem compilePat_dotStar (rest : List Char) :
    compilePat ('.' :: '*' :: rest) =
      Option.map (fun ts => RTok.dotStar :: ts) (compilePat rest) := by
  simp [compilePat]

theorem compilePat_escDot (rest : List Char) :
    compilePat ('\\' :: '.' :: rest) =
      Option.map (fun ts => RTok.lit '.' :: ts) (compilePat rest) := by
  simp [compilePat]

theorem searchPatterns_cons_some (p : String) (ps : List String) (content : String)
    (ts : List RTok) (hc : compilePat p.data = some ts) :
    searchPatterns (p :: ps) content =
      (reSearch ts content.data || searchPatterns ps content) := by
  simp [searchPatterns, hc]

theorem plainAll_append (a b : List Char) (ha : ∀ c ∈ a, plainChar c = true)
    (hb : ∀ c ∈ b, plainChar c = true) : ∀ c ∈ a ++ b, plainChar c = true := by
  intro c hc
  rcases List.mem_append.mp hc with h | h
  · exact ha c h
  · exact hb c h

/-- If any of the six surface patterns of `check_function_exists` matches and
the name contains no regex metacharacter, the name occurs literally in the
text. -/
theorem searchPatterns_plain_sound (name content : String)
    (hp : ∀ c ∈ name.data, plainChar c = true)
    (h : searchPatterns (functionPatterns name) content = true) :
    containsSub content.data name.data = true := by
  have e1 : compilePat ("function " ++ name).data =
      some (lits "function ".data ++ lits name.data) := by
    rw [str_data_append,
      compilePat_plain ("function ".data ++ name.data) (plainAll_append _ _ (by decide) hp)]
    simp [lits]
  have e2 : compilePat ("function.*" ++ name).data =
      some ((lits ['f','u','n','c','t','i','o','n'] ++ [RTok.dotStar]) ++ lits name.data) := by
    rw [str_data_append]
    have hsplit : "function.*".data ++ name.data =
        ['f','u','n','c','t','i','o','n'] ++ ('.' :: '*' :: name.data) := rfl
    rw [hsplit, compilePat_plain_pre _ _ (by decide), compilePat_dotStar,
      compilePat_plain name.data hp]
    simp
  have e3 : compilePat ("local function " ++ name).data =
      some (lits "local function ".data ++ lits name.data) := by
    rw [str_data_append,
      compilePat_plain ("local function ".data ++ name.data) (plainAll_append _ _ (by decide) hp)]
    simp [lits]
  have e4 : compilePat ("function.*:" ++ name).data =
      some ((lits ['f','u','n','c','t','i','o','n'] ++ [RTok.dotStar, RTok.lit ':']) ++
        lits name.data) := by
    rw [str_data_append]
    have hsplit : "function.*:".data ++ name.data =
        ['f','u','n','c','t','i','o','n'] ++ ('.' :: '*' :: (':' :: name.data)) := rfl
    rw [hsplit, compilePat_plain_pre _ _ (by decide), compilePat_dotStar,
      compilePat_plain (':' :: name.data) (plainAll_append [':'] name.data (by decide) hp)]
    simp [lits]
  have e5 : compilePat (name ++ " = function").data =
      some (lits (name.data ++ " = function".data)) := by
    rw [str_data_append,
      compilePat_plain (name.data ++ " = function".data) (plainAll_append _ _ hp (by decide))]
  have e6 : compilePat ("function.*\\." ++ name).data =
      some ((lits ['f','u','n','c','t','i','o','n'] ++ [RTok.dotStar, RTok.lit '.']) ++
        lits name.data) := by
    rw [str_data_append]
    have hsplit : "function.*\\.".data ++ name.data =
        ['f','u','n','c','t','i','o','n'] ++ ('.' :: '*' :: ('\\' :: '.' :: name.data)) := rfl
    rw [hsplit, compilePat_plain_pre _ _ (by decide), compilePat_dotStar, compilePat_escDot,
      compilePat_plain name.data hp]
    simp [lits]
  simp only [functionPatterns] at h
  rw [searchPatterns_cons_some _ _ _ _ e1, searchPatterns_cons_some _ _ _ _ e2,
    searchPatterns_cons_some _ _ _ _ e3, searchPatterns_cons_some _ _ _ _ e4,
    searchPatterns_cons_some _ _ _ _ e5, searchPatterns_cons_some _ _ _ _ e6] at h
  simp only [searchPatterns, Bool.or_false, Bool.or_eq_true] at h
  rcases h with h | h | h | h | h | h
  · exact containsSub_of_search (lits "function ".data) name.data content.data h
  · exact containsSub_of_search _ name.data content.data h
  · exact containsSub_of_search (lits "local function ".data) name.data content.data h
  · exact containsSub_of_search _ name.data content.data h
  · have := containsSub_of_search [] (name.data ++ " = function".data) content.data h
    exact containsSub_append_left content.data name.data " = function".data this
  · exact containsSub_of_search _ name.data content.data h

theorem check_file_exists_snd (fs : FS) (p d : String) :
    (check_file_exists fs p d).2 = osPathExists fs p := by
  unfold check_file_exists
  split <;> simp_all

/-- Every entry of the tree is a readable regular file: the filesystem states
under which the script's bare `open` calls cannot raise. -/
def goodFS (fs : FS) : Prop :=
  ∀ p e, (p, e) ∈ fs → e.isDir = false ∧ e.readable = true

theorem lookupFS_mem : ∀ (fs : FS) (p : String) (e : FSEntry),
    lookupFS fs p = some e → (p, e) ∈ fs
  | [], _, _, h => by simp [lookupFS] at h
  | (k, e') :: rest, p, e, h => by
    unfold lookupFS at h
    by_cases hk : (k == p) = true
    · rw [if_pos hk] at h
      injection h with h
      subst h
      have hkp : k = p := eq_of_beq hk
      subst hkp
      exact List.mem_cons_self (k, e') rest
    · rw [if_neg hk] at h
      exact List.mem_cons_of_mem _ (lookupFS_mem rest p e h)

theorem readFile_good (fs : FS) (h : goodFS fs) (p : String)
    (hex : osPathExists fs p = true) : ∃ c, readFile fs p = some c := by
  unfold osPathExists at hex
  rcases hl : lookupFS fs p with _ | e
  · rw [hl] at hex; simp at hex
  · have hf := h p e (lookupFS_mem fs p e hl)
    exact ⟨e.content, by simp [readFile, hl, hf.1, hf.2]⟩

theorem validate_rooted_tree_ok (fs : FS) (h : goodFS fs) :
    ∃ v, validate_rooted_tree fs = .ok v := by
  unfold validate_rooted_tree
  by_cases hex : osPathExists fs "rooted_tree.lua" = true
  · obtain ⟨c, hc⟩ := readFile_good fs h _ hex
    simp [check_file_exists_snd, hex, hc, check_file_exists]
  · simp [check_file_exists_snd, hex, check_file_exists, Bool.eq_false_iff.mpr hex]

theorem validate_hypershell_ok (fs : FS) :
    ∃ v, validate_hypershell fs = .ok v := by
  unfold validate_hypershell
  dsimp only
  split <;> exact ⟨_, rfl⟩

theorem validate_rooted_hypershell_ok (fs : FS) :
    ∃ v, validate_rooted_hypershell fs = .ok v := by
  unfold validate_rooted_hypershell
  dsimp only
  split
  · exact ⟨_, rfl⟩
  · split <;> exact ⟨_, rfl⟩

theorem validate_tests_ok (fs : FS) :
    ∃ v, validate_tests fs = .ok v := by
  unfold validate_tests
  dsimp only
  split <;> exact ⟨_, rfl⟩

theorem validate_examples_ok (fs : FS) (h : goodFS fs) :
    ∃ v, validate_examples fs = .ok v := by
  unfold validate_examples
  by_cases hex : osPathExists fs "examples/rooted_hypershell_example.lua" = true
  · obtain ⟨c, hc⟩ := readFile_good fs h _ hex
    simp [check_file_exists_snd, hex, hc, check_file_exists]
  · simp [check_file_exists_snd, hex, check_file_exists, Bool.eq_false_iff.mpr hex]

theorem docPart_ok (fs : FS) (h : goodFS fs) : ∃ v, docPart fs = .ok v := by
  unfold docPart
  by_cases hex : osPathExists fs "doc/ROOTED_HYPERSHELL.md" = true
  · obtain ⟨c, hc⟩ := readFile_good fs h _ hex
    simp [check_file_exists_snd, hex, hc, check_file_exists]
  · simp [check_file_exists_snd, hex, check_file_exists, Bool.eq_false_iff.mpr hex]

theorem readmePart_ok (fs : FS) (h : goodFS fs) : ∃ v, readmePart fs = .ok v := by
  unfold readmePart
  by_cases hex : osPathExists fs "README.md" = true
  · obtain ⟨c, hc⟩ := readFile_good fs h _ hex
    simp only [check_file_exists_snd, hex, hc, if_true]
    split <;> exact ⟨_, rfl⟩
  · simp [check_file_exists_snd, hex, check_file_exists, Bool.eq_false_iff.mpr hex]

theorem validate_documentation_ok (fs : FS) (h : goodFS fs) :
    ∃ v, validate_documentation fs = .ok v := by
  obtain ⟨d, hd⟩ := docPart_ok fs h
  obtain ⟨r, hr⟩ := readmePart_ok fs h
  unfold validate_documentation
  simp only [Bind.bind, Except.bind, hd, hr, pure, Except.pure]
  exact ⟨_, rfl⟩

theorem validate_integration_ok (fs : FS) (h : goodFS fs) :
    ∃ v, validate_integration fs = .ok v := by
  unfold validate_integration
  by_cases hex : osPathExists fs "init.lua" = true
  · obtain ⟨c, hc⟩ := readFile_good fs h _ hex
    simp [check_file_exists_snd, hex, hc, check_file_exists]
  · simp [check_file_exists_snd, hex, check_file_exists, Bool.eq_false_iff.mpr hex]

theorem mainRun_eq (fs : FS) (l1 l2 l3 l4 l5 l6 l7 : List String)
    (b1 b2 b3 b4 b5 b6 b7 : Bool)
    (h1 : validate_rooted_tree fs = .ok (l1, b1))
    (h2 : validate_hypershell fs = .ok (l2, b2))
    (h3 : validate_rooted_hypershell fs = .ok (l3, b3))
    (h4 : validate_tests fs = .ok (l4, b4))
    (h5 : validate_examples fs = .ok (l5, b5))
    (h6 : validate_documentation fs = .ok (l6, b6))
    (h7 : validate_integration fs = .ok (l7, b7)) :
    mainRun fs = .ok (if b1 && b2 && b3 && b4 && b5 && b6 && b7 then 0 else 1) := by
  unfold mainRun
  simp only [h1, h2, h3, h4, h5, h6, h7, Bind.bind, Except.bind, List.foldl, pure, Except.pure]
  cases b1 <;> cases b2 <;> cases b3 <;> cases b4 <;> cases b5 <;> cases b6 <;> cases b7 <;> rfl

theorem osPathExists_of_readFile (fs : FS) (p c : String)
    (h : readFile fs p = some c) : osPathExists fs p = true := by
  unfold readFile at h
  rcases hl : lookupFS fs p with _ | e
  · rw [hl] at h; simp at h
  · simp [osPathExists, hl]

theorem check_file_exists_pos (fs : FS) (p d : String)
    (h : osPathExists fs p = true) :
    check_file_exists fs p d = ("✓ " ++ d ++ ": " ++ p, true) := by
  unfold check_file_exists
  rw [if_pos h]

theorem constructItem_snd (fs : FS) (p lbl m : String) :
    (constructItem fs p lbl m).2 = check_function_exists fs p m := by
  unfold constructItem
  split <;> simp_all

theorem integrationItem_snd (content m : String) :
    (integrationItem content m).2 = moduleRequired content m := by
  unfold integrationItem
  split <;> simp_all

theorem docPart_spec (fs : FS)
    (h : ∀ e, lookupFS fs "doc/ROOTED_HYPERSHELL.md" = some e →
      e.isDir = false ∧ e.readable = true) :
    ∃ dl, docPart fs = .ok (dl, (lookupFS fs "doc/ROOTED_HYPERSHELL.md").isSome) := by
  unfold docPart
  rcases hl : lookupFS fs "doc/ROOTED_HYPERSHELL.md" with _ | e
  · simp [check_file_exists_snd, osPathExists, hl]
  · have hf := h e hl
    have hrd : readFile fs "doc/ROOTED_HYPERSHELL.md" = some e.content := by
      simp [readFile, hl, hf.1, hf.2]
    simp [check_file_exists_snd, osPathExists, hl, hrd]

theorem readmePart_spec (fs : FS)
    (h : ∀ e, lookupFS fs "README.md" = some e →
      e.isDir = false ∧ e.readable = true) :
    ∃ rl, readmePart fs =
      .ok (rl, (lookupFS fs "README.md").isSome && readmeMentions fs) := by
  unfold readmePart
  rcases hl : lookupFS fs "README.md" with _ | e
  · have hrd : readFile fs "README.md" = none := by simp [readFile, hl]
    simp [check_file_exists_snd, osPathExists, hl, readmeMentions, hrd]
  · have hf := h e hl
    have hrd : readFile fs "README.md" = some e.content := by
      simp [readFile, hl, hf.1, hf.2]
    unfold readmeMentions
    rw [hrd]
    simp only [check_file_exists_snd, osPathExists, hl, Option.isSome_some, if_true]
    cases hm : (strIn "Rooted Hypershell" e.content || strIn "rooted hypershell" e.content)
    · refine ⟨[(check_file_exists fs "README.md" "README").1,
        "  ✗ README does not mention Rooted Hypershell"], ?_⟩
      simp [hm]
    · refine ⟨[(check_file_exists fs "README.md" "README").1,
        "  ✓ README mentions Rooted Hypershell"], ?_⟩
      simp [hm]

/-- Claim C1: the overall verdict computed by `main` is the logical AND of
the seven component verdicts, the exit code is 0 exactly when every verdict
is true and 1 when at least one is false; in particular flipping one
component from pass to fail flips the exit code from 0 to 1. -/
theorem claim_C1_overall_verdict (fs : FS) (l1 l2 l3 l4 l5 l6 l7 : List String)
    (b1 b2 b3 b4 b5 b6 b7 : Bool)
    (h1 : validate_rooted_tree fs = .ok (l1, b1))
    (h2 : validate_hypershell fs = .ok (l2, b2))
    (h3 : validate_rooted_hypershell fs = .ok (l3, b3))
    (h4 : validate_tests fs = .ok (l4, b4))
    (h5 : validate_examples fs = .ok (l5, b5))
    (h6 : validate_documentation fs = .ok (l6, b6))
    (h7 : validate_integration fs = .ok (l7, b7)) :
    mainRun fs = .ok (if b1 && b2 && b3 && b4 && b5 && b6 && b7 then 0 else 1) ∧
    ((b1 && b2 && b3 && b4 && b5 && b6 && b7) = true → mainRun fs = .ok 0) ∧
    ((b1 && b2 && b3 && b4 && b5 && b6 && b7) = false → mainRun fs = .ok 1) := by
  have hm := mainRun_eq fs l1 l2 l3 l4 l5 l6 l7 b1 b2 b3 b4 b5 b6 b7 h1 h2 h3 h4 h5 h6 h7
  refine ⟨hm, ?_, ?_⟩ <;> intro hb <;> rw [hb] at hm <;> simpa using hm

/-- Witness for C1: on the empty tree every component fails, and the exit
code is 1. -/
theorem claim_C1_witness : mainRun [] = .ok 1 :=
  (claim_C1_overall_verdict [] _ _ _ _ _ _ _ _ _ _ _ _ _ _
    rfl rfl rfl rfl rfl rfl rfl).2.2 rfl

/-- Claim C3 counterexample: when `rooted_tree.lua` exists but cannot be
read, the existence probe succeeds, the bare `open` in
`validate_rooted_tree` raises, and the error reaches the entry point: no
summary is produced, refuting the claim that every filesystem state degrades
into boolean results. -/
theorem claim_C3_cex : mainRun fsC3 = .error () := rfl

/-- Claim C3 (amended): the helper checks degrade failures into `false`, and
whenever every existing entry is a readable regular file, no error escapes
and `main` returns an exit code, so the full report is produced; but a file
that exists and is unreadable makes the bare `open` calls of the validators
raise an unhandled error (see the counterexample). -/
theorem claim_C3_graceful_on_readable (fs : FS) (h : goodFS fs) :
    ∃ n, mainRun fs = .ok n := by
  obtain ⟨⟨l1, b1⟩, h1⟩ := validate_rooted_tree_ok fs h
  obtain ⟨⟨l2, b2⟩, h2⟩ := validate_hypershell_ok fs
  obtain ⟨⟨l3, b3⟩, h3⟩ := validate_rooted_hypershell_ok fs
  obtain ⟨⟨l4, b4⟩, h4⟩ := validate_tests_ok fs
  obtain ⟨⟨l5, b5⟩, h5⟩ := validate_examples_ok fs h
  obtain ⟨⟨l6, b6⟩, h6⟩ := validate_documentation_ok fs h
  obtain ⟨⟨l7, b7⟩, h7⟩ := validate_integration_ok fs h
  exact ⟨_, mainRun_eq fs l1 l2 l3 l4 l5 l6 l7 b1 b2 b3 b4 b5 b6 b7 h1 h2 h3 h4 h5 h6 h7⟩

/-- Witness for C3 (amended): the empty tree is trivially readable and the
run completes with an exit code. -/
theorem claim_C3_witness : ∃ n, mainRun [] = .ok n :=
  claim_C3_graceful_on_readable []
    (by intro p e hm; exact absurd hm (List.not_mem_nil _))

/-- Claim C4 counterexample: the probe uses `os.path.exists`, so a directory
sitting at the probed path yields `true`, refuting the claim that the probe
is true only for regular files. -/
theorem claim_C4_cex :
    (check_file_exists [("subdir", dirEntry)] "subdir" "RootedTree module").2 = true ∧
    dirEntry.isDir = true := by
  constructor <;> rfl

/-- Claim C4 (amended): `check_file_exists` returns true iff any entry —
regular file or directory, readable or not — exists at the path, and false
only when nothing exists there. -/
theorem claim_C4_exists_probe (fs : FS) (p d : String) :
    (check_file_exists fs p d).2 = (lookupFS fs p).isSome := by
  rw [check_file_exists_snd]
  rfl

/-- Claim C9: `check_function_exists` and `check_class_exists` are total:
they can answer `true` only after a successful read, and every read failure
(missing, unreadable, or directory path) degrades to `false` instead of
propagating; pattern-compilation failures likewise end in the `false` of the
exception handler, which the model builds into `searchPatterns`. -/
theorem claim_C9_checker_totality (fs : FS) (p name : String) :
    (check_function_exists fs p name = true → ∃ c, readFile fs p = some c) ∧
    (check_class_exists fs p name = true → ∃ c, readFile fs p = some c) ∧
    (readFile fs p = none →
      check_function_exists fs p name = false ∧ check_class_exists fs p name = false) := by
  unfold check_function_exists check_class_exists
  rcases hr : readFile fs p with _ | c
  · simp
  · simp

/-- Witness for C9: on an empty tree, even a name that is an invalid regular
expression yields `false` from both checkers. -/
theorem claim_C9_witness :
    check_function_exists [] "rooted_tree.lua" "countRootedTrees(" = false ∧
    check_class_exists [] "rooted_tree.lua" "countRootedTrees(" = false :=
  (claim_C9_checker_totality [] "rooted_tree.lua" "countRootedTrees(").2.2 rfl

/-- Claim C5 counterexample: for the name `a.b` the `.` is a regex wildcard,
so `check_function_exists` answers `true` on a file containing
`function axb` even though the name string `a.b` is entirely absent — a
false positive refuting the claim for arbitrary names. -/
theorem claim_C5_cex :
    check_function_exists fsC5 "rooted_tree.lua" "a.b" = true ∧
    strIn "a.b" "function axb" = false := by
  constructor <;> rfl

/-- Claim C5 (amended): for names made only of regex-ordinary characters (no
metacharacter, no backslash) the claim holds: if the name string is entirely
absent from the readable file's text, `check_function_exists` returns
`false`; names containing metacharacters such as `.` admit false
positives. -/
theorem claim_C5_no_false_positive_plain (fs : FS) (p name content : String)
    (hp : ∀ c ∈ name.data, plainChar c = true)
    (hr : readFile fs p = some content)
    (habs : strIn name content = false) :
    check_function_exists fs p name = false := by
  cases hval : check_function_exists fs p name
  · rfl
  · exfalso
    simp only [check_function_exists, hr] at hval
    have hocc := searchPatterns_plain_sound name content hp hval
    rw [strIn] at habs
    rw [hocc] at habs
    exact Bool.noConfusion habs

/-- Witness for C5 (amended): `getLeaves` is metacharacter-free and absent
from the fixture file, and the checker answers `false`. -/
theorem claim_C5_witness :
    check_function_exists fsW5 "rooted_tree.lua" "getLeaves" = false :=
  claim_C5_no_false_positive_plain fsW5 "rooted_tree.lua" "getLeaves"
    "local function addChild(node) end" (by decide) rfl (by decide)

/-- Claim C6 counterexample: a double-quoted registration without the `nn.`
prefix — `torch.class("RootedHypershell")` — carries the name as a string
literal argument, yet `check_class_exists` answers `false`: the code does
not accept all four prefix/quote combinations. -/
theorem claim_C6_cex :
    check_class_exists fsC6 "rooted_hypershell.lua" "RootedHypershell" = false ∧
    strIn "torch.class(\"RootedHypershell\"" "torch.class(\"RootedHypershell\")" = true := by
  constructor <;> rfl

/-- Claim C6 (amended): on a readable file, `check_class_exists` is true iff
the text contains the local-binding form, the table-literal assignment form,
the single-quoted `torch.class` form without namespace prefix, or the
double-quoted `torch.class` form with the `nn.` prefix — exactly these two
of the four prefix/quote combinations. -/
theorem claim_C6_class_forms (fs : FS) (p name c : String)
    (hr : readFile fs p = some c) :
    check_class_exists fs p name =
      (strIn ("local " ++ name) c || strIn (name ++ " = \x7b\x7d") c ||
       strIn ("torch.class(\x27" ++ name ++ "\x27") c ||
       strIn ("torch.class(\"nn." ++ name ++ "\"") c) := by
  simp only [check_class_exists, hr]
  cases ha1 : strIn ("local " ++ name) c <;>
    cases ha2 : strIn (name ++ " = \x7b\x7d") c <;>
    cases hb1 : strIn ("torch.class(\x27" ++ name ++ "\x27") c <;>
    cases hb2 : strIn ("torch.class(\"nn." ++ name ++ "\"") c <;>
    simp [ha1, ha2, hb1, hb2]

/-- Witness for C6 (amended): the single-quoted unprefixed registration of
`Demo` is recognized. -/
theorem claim_C6_witness :
    check_class_exists fsW6 "rooted_hypershell.lua" "Demo" = true := by
  rw [claim_C6_class_forms fsW6 "rooted_hypershell.lua" "Demo"
    "torch.class(\x27Demo\x27, \x27nn.Module\x27)" rfl]
  rfl

/-- Claim C7: when `rooted_tree.lua` is absent, `validate_rooted_tree`
prints only the header and the NOT-FOUND line, returns `false` immediately
(all construct checks are skipped and count against the component), and —
provided the other validators complete — the overall exit code is 1. -/
theorem claim_C7_absent_artifact (fs : FS) (l2 l3 l4 l5 l6 l7 : List String)
    (b2 b3 b4 b5 b6 b7 : Bool)
    (habs : lookupFS fs "rooted_tree.lua" = none)
    (h2 : validate_hypershell fs = .ok (l2, b2))
    (h3 : validate_rooted_hypershell fs = .ok (l3, b3))
    (h4 : validate_tests fs = .ok (l4, b4))
    (h5 : validate_examples fs = .ok (l5, b5))
    (h6 : validate_documentation fs = .ok (l6, b6))
    (h7 : validate_integration fs = .ok (l7, b7)) :
    validate_rooted_tree fs = .ok (["\n=== Validating RootedTree Module ===",
      "✗ RootedTree module NOT FOUND: rooted_tree.lua"], false) ∧
    mainRun fs = .ok 1 := by
  have h1 : validate_rooted_tree fs = .ok (["\n=== Validating RootedTree Module ===",
      "✗ RootedTree module NOT FOUND: rooted_tree.lua"], false) := by
    unfold validate_rooted_tree
    simp [check_file_exists, osPathExists, habs]
  refine ⟨h1, ?_⟩
  have hm := mainRun_eq fs _ l2 l3 l4 l5 l6 l7 false b2 b3 b4 b5 b6 b7 h1 h2 h3 h4 h5 h6 h7
  simpa using hm

/-- Witness for C7: the empty tree has no `rooted_tree.lua`; the component
report is the two lines and the exit code is 1. -/
theorem claim_C7_witness :
    validate_rooted_tree [] = .ok (["\n=== Validating RootedTree Module ===",
      "✗ RootedTree module NOT FOUND: rooted_tree.lua"], false) ∧
    mainRun [] = .ok 1 :=
  claim_C7_absent_artifact [] _ _ _ _ _ _ _ _ _ _ _ _
    rfl rfl rfl rfl rfl rfl rfl

theorem all_map_poly {α β : Type} (l : List α) (f : α → β) (p : β → Bool) :
    (l.map f).all p = l.all (fun x => p (f x)) := by
  induction l with
  | nil => rfl
  | cons a t ih => simp [List.all_cons, ih]

/-- Claim C2 counterexample: (a) a failed class-definition check in
`validate_rooted_hypershell` short-circuits the component — the report stops
at the class line and none of the six method items is evaluated or printed,
although `updateOutput` would have passed; (b) the three architecture-
document substring checks of `validate_documentation` never flip the
verdict: all three markers are missing yet the component passes. -/
theorem claim_C2_cex :
    (validate_rooted_hypershell fsC2 = .ok (["\n=== Validating RootedHypershell Module ===",
      "✓ RootedHypershell module: rooted_hypershell.lua", "  ✗ Class definition missing"],
      false) ∧
     check_function_exists fsC2 "rooted_hypershell.lua" "updateOutput" = true) ∧
    validate_documentation fsC2doc = .ok (["\n=== Validating Documentation ===",
      "✓ Architecture documentation: doc/ROOTED_HYPERSHELL.md",
      "✓ README: README.md", "  ✓ README mentions Rooted Hypershell"], true) := by
  exact ⟨⟨rfl, rfl⟩, rfl⟩

/-- Claim C2 (amended): within the per-method loop of
`validate_rooted_hypershell` no item short-circuits — once the file is
readable and the class check passes, every method in the list contributes
exactly one report line whatever its outcome, and the verdict is the
conjunction of all six item results, so any single miss flips it to false;
but a failed class check skips the whole method loop, and the architecture-
document content checks of the Documentation component never affect its
verdict. -/
theorem claim_C2_loop_no_short_circuit (fs : FS) (c : String)
    (hr : readFile fs "rooted_hypershell.lua" = some c)
    (hc : check_class_exists fs "rooted_hypershell.lua" "RootedHypershell" = true) :
    validate_rooted_hypershell fs = .ok (
      "\n=== Validating RootedHypershell Module ===" ::
      "✓ RootedHypershell module: rooted_hypershell.lua" ::
      "  ✓ Class: nn.RootedHypershell" ::
      rootedHypershellMethods.map
        (fun m => (constructItem fs "rooted_hypershell.lua" "Method" m).1),
      rootedHypershellMethods.all
        (fun m => check_function_exists fs "rooted_hypershell.lua" m)) ∧
    (∀ m ∈ rootedHypershellMethods,
      check_function_exists fs "rooted_hypershell.lua" m = false →
      rootedHypershellMethods.all
        (fun m2 => check_function_exists fs "rooted_hypershell.lua" m2) = false) := by
  have hex := osPathExists_of_readFile fs "rooted_hypershell.lua" c hr
  constructor
  · unfold validate_rooted_hypershell
    rw [check_file_exists_pos fs "rooted_hypershell.lua" "RootedHypershell module" hex]
    simp only [hc, Bool.not_true, if_true, if_false, List.map_map]
    rw [all_map_poly]
    simp only [constructItem_snd]
    rfl
  · intro m hm hfalse
    cases hv : rootedHypershellMethods.all
        (fun m2 => check_function_exists fs "rooted_hypershell.lua" m2)
    · rfl
    · rw [List.all_eq_true] at hv
      exact absurd (hv m hm) (by simp [hfalse])

/-- Witness for C2 (amended): on the fixture with the class present and one
method defined, the component report carries one line per method and the
conjunction verdict. -/
theorem claim_C2_witness :
    validate_rooted_hypershell fsW2 = .ok (
      "\n=== Validating RootedHypershell Module ===" ::
      "✓ RootedHypershell module: rooted_hypershell.lua" ::
      "  ✓ Class: nn.RootedHypershell" ::
      rootedHypershellMethods.map
        (fun m => (constructItem fsW2 "rooted_hypershell.lua" "Method" m).1),
      rootedHypershellMethods.all
        (fun m => check_function_exists fsW2 "rooted_hypershell.lua" m)) :=
  (claim_C2_loop_no_short_circuit fsW2 contentW2 rfl rfl).1

/-- Claim C8: the Integration component fails with only the NOT-FOUND line
when `init.lua` is absent; on a readable `init.lua` it reports one line per
module, passes iff each of the three modules appears in a namespaced
`require` of either quote style, and the number of `✗ Module not required`
lines equals the number of modules whose `require` is missing (so exactly
one missing module prints exactly one such line). -/
theorem claim_C8_integration (fs : FS) :
    (lookupFS fs "init.lua" = none →
      validate_integration fs = .ok (["\n=== Validating Integration ===",
        "✗ init.lua NOT FOUND: init.lua"], false)) ∧
    (∀ content, readFile fs "init.lua" = some content →
      validate_integration fs = .ok ("\n=== Validating Integration ===" ::
        "✓ init.lua: init.lua" ::
        integrationModules.map (fun m => (integrationItem content m).1),
        integrationModules.all (fun m => moduleRequired content m)) ∧
      (integrationModules.map (fun m => (integrationItem content m).1)).countP
          isMissingModuleLine
        = integrationModules.countP (fun m => !moduleRequired content m)) := by
  constructor
  · intro habs
    unfold validate_integration
    simp [check_file_exists, osPathExists, habs]
  · intro content hr
    have hex := osPathExists_of_readFile fs "init.lua" content hr
    constructor
    · unfold validate_integration
      rw [check_file_exists_pos fs "init.lua" "init.lua" hex]
      simp only [Bool.not_true, if_false]
      rw [if_neg (by simp)]
      simp only [hr, List.map_map]
      rw [all_map_poly]
      simp only [integrationItem_snd]
      rfl
    · cases hq1 : moduleRequired content "rooted_tree" <;>
        cases hq2 : moduleRequired content "hypershell" <;>
        cases hq3 : moduleRequired content "rooted_hypershell" <;>
        simp [integrationModules, integrationItem, isMissingModuleLine,
          hq1, hq2, hq3, List.countP_cons, List.countP_nil]

/-- Witness for C8: the fixture `init.lua` wires `rooted_tree` and
`hypershell` but not `rooted_hypershell`: the component report is produced,
exactly one module is counted missing, and the verdict is false. -/
theorem claim_C8_witness :
    (validate_integration fsW8 = .ok ("\n=== Validating Integration ===" ::
      "✓ init.lua: init.lua" ::
      integrationModules.map (fun m => (integrationItem contentW8 m).1),
      integrationModules.all (fun m => moduleRequired contentW8 m)) ∧
     (integrationModules.map (fun m => (integrationItem contentW8 m).1)).countP
        isMissingModuleLine
       = integrationModules.countP (fun m => !moduleRequired contentW8 m)) ∧
    integrationModules.countP (fun m => !moduleRequired contentW8 m) = 1 ∧
    integrationModules.all (fun m => moduleRequired contentW8 m) = false := by
  refine ⟨(claim_C8_integration fsW8).2 contentW8 rfl, ?_, ?_⟩ <;> rfl

/-- Claim C10: provided the two documentation files are readable when
present, the Documentation verdict is independent of the architecture
document's content — the component returns true iff
`doc/ROOTED_HYPERSHELL.md` exists, `README.md` exists, and the README
mentions the feature; the three doc-content substring checks cannot make it
false. -/
theorem claim_C10_documentation_verdict (fs : FS)
    (h1 : ∀ e, lookupFS fs "doc/ROOTED_HYPERSHELL.md" = some e →
      e.isDir = false ∧ e.readable = true)
    (h2 : ∀ e, lookupFS fs "README.md" = some e →
      e.isDir = false ∧ e.readable = true) :
    ∃ lines, validate_documentation fs = .ok (lines,
      ((lookupFS fs "doc/ROOTED_HYPERSHELL.md").isSome &&
       (lookupFS fs "README.md").isSome) && readmeMentions fs) := by
  obtain ⟨dl, hd⟩ := docPart_spec fs h1
  obtain ⟨rl, hr⟩ := readmePart_spec fs h2
  refine ⟨"\n=== Validating Documentation ===" :: (dl ++ rl), ?_⟩
  unfold validate_documentation
  simp only [Bind.bind, Except.bind, hd, hr, pure, Except.pure, Bool.and_assoc]

/-- Witness for C10: on the complete fixture documentation pair the
component passes. -/
theorem claim_C10_witness :
    ∃ lines, validate_documentation fsW10 = .ok (lines, true) := by
  obtain ⟨l, hl⟩ := claim_C10_documentation_verdict fsW10
    (by
      intro e he
      have he2 : some (⟨false, true, "A000081 RootedTree Hypershell"⟩ : FSEntry) = some e := he
      injection he2 with h3
      rw [← h3]
      exact ⟨rfl, rfl⟩)
    (by
      intro e he
      have he2 : some (⟨false, true, "about Rooted Hypershell nets"⟩ : FSEntry) = some e := he
      injection he2 with h3
      rw [← h3]
      exact ⟨rfl, rfl⟩)
  exact ⟨l, hl⟩
